import Mathlib

/-!
Verification of the ai-bukkatsu-system orchestration engine
(`src/lib/browser-mirror-engine.ts`, `src/lib/credentials-manager.ts`)
against its natural-language specification.

The TypeScript sources are shallowly embedded: pure functions become Lean
functions, the stateful engine becomes explicit state passing, fallible code
returns `Except`/`Option`.  JavaScript strings are Lean `String`s;
`String.prototype.toLowerCase` is modelled by Lean's ASCII `Char.toLower`
mapping (identity on all non-ASCII characters, which agrees with JavaScript on
every character occurring in the embedded synonym/keyword tables);
`String.prototype.includes` is substring (infix) containment;
`String.prototype.trim` is `jsTrim`.  JavaScript's real-number division
in `determineFinalStatus` is modelled exactly, with the comparison taken in ℚ.
-/

namespace Bukkatsu

/-- JS `s.toLowerCase()` (ASCII range; identity elsewhere), written over
the character list so that concrete instances evaluate. -/
def jsToLower (s : String) : String :=
  ⟨s.data.map Char.toLower⟩

/-- JS `s.trim()`: strip leading and trailing whitespace. -/
def jsTrim (s : String) : String :=
  ⟨((s.data.dropWhile Char.isWhitespace).reverse.dropWhile Char.isWhitespace).reverse⟩

/-- Does `sub` occur contiguously inside `l`?  Structural recursion so that
concrete instances evaluate; `charsInclude_iff_infix` relates it to
`List.IsInfix`. -/
def charsInclude (l sub : List Char) : Bool :=
  sub.isPrefixOf l ||
    match l with
    | [] => false
    | _ :: rest => charsInclude rest sub

/-- `charsInclude` decides contiguous (infix) containment. -/
theorem charsInclude_correct (l sub : List Char) :
    charsInclude l sub = true ↔ sub <:+: l := by
  induction l with
  | nil =>
      rw [charsInclude]
      simp [ List.isPrefixOf_iff_prefix, List.infix_nil, List.prefix_nil]
  | cons a rest ih =>
      rw [charsInclude]
      simp [ List.isPrefixOf_iff_prefix, List.infix_cons_iff, ih]

/-- JS `s.includes(sub)`: `sub` occurs contiguously inside `s`. -/
def jsIncludes (s sub : String) : Bool :=
  charsInclude s.data sub.data

/-- Status of one site-verification result
(`VerificationSiteResult.status` in `types/notion-integration`). -/
inductive SiteStatus
  | available | occupied | unknown | error
  deriving DecidableEq, Repr

/-- Final per-property verdict
(`NotionPropertyResult.finalStatus`). -/
inductive FinalStatus
  | available | occupied | unknown | needs_call
  deriving DecidableEq, Repr

/-- `SiteCredential` from `types/credentials.ts`; the parser always fills
`notes`/`url` with `''` when absent, so they are plain strings here. -/
structure SiteCredential where
  siteName : String
  url : String
  username : String
  password : String
  notes : String
  deriving DecidableEq, Repr

/-- A resolved site as produced by `getAvailableSites`:
`{name, url, credential?}`. -/
structure Site where
  name : String
  url : String
  credential : Option SiteCredential
  deriving DecidableEq, Repr

/-- `VerificationSiteResult` (the fields the engine populates). -/
structure VerificationSiteResult where
  siteName : String
  url : String
  status : SiteStatus
  notes : String
  deriving DecidableEq, Repr

/-- The JavaScript comparison `count > len / 2` where `/` is real-number
division.  For natural `count` and `len` this holds exactly when
`len < 2 * count`; the lemma `jsGtHalf_iff_rat` below proves that this
definition coincides with the rational-division comparison, so the integer
form is an exact rendering of the source's non-integer division. -/
def jsGtHalf (count len : Nat) : Bool :=
  len < 2 * count

/-- `jsGtHalf` is exactly the source's real-division threshold
`count > len / 2`. -/
theorem jsGtHalf_iff_rat (c l : ℕ) : jsGtHalf c l = true ↔ ((c : ℚ) > (l : ℚ) / 2) := by
  unfold jsGtHalf
  rw [gt_iff_lt, div_lt_iff₀ (by norm_num : (0:ℚ) < 2), mul_comm]
  simp only [decide_eq_true_eq]
  exact_mod_cast Iff.rfl

/-- `BrowserMirrorEngine.determineFinalStatus` (browser-mirror-engine.ts:507).
The threshold `errorCount + unknownCount > siteResults.length / 2` uses
JavaScript real-number division, rendered exactly by `jsGtHalf`. -/
def determineFinalStatus (siteResults : List VerificationSiteResult) : FinalStatus :=
  let availableCount := (siteResults.filter (fun r => r.status = SiteStatus.available)).length
  let occupiedCount := (siteResults.filter (fun r => r.status = SiteStatus.occupied)).length
  let errorCount := (siteResults.filter (fun r => r.status = SiteStatus.error)).length
  let unknownCount := (siteResults.filter (fun r => r.status = SiteStatus.unknown)).length
  if availableCount > 0 ∧ occupiedCount = 0 then
    FinalStatus.available
  else if occupiedCount > 0 then
    FinalStatus.occupied
  else if jsGtHalf (errorCount + unknownCount) siteResults.length then
    FinalStatus.needs_call
  else
    FinalStatus.unknown

/-- Specification-side verdict function, written from the spec's words
(§4.5): precedence over the outcomes for a property, with the `needs_call`
threshold measured against `visitedSites.length / 2` in non-integer division
(`jsGtPreciseHalf`, proved equal to the ℚ comparison).  Used only to compare
against `determineFinalStatus`. -/
def specFinalize (outcomes : List SiteStatus) (visitedSites : List Site) : FinalStatus :=
  if (∃ o ∈ outcomes, o = SiteStatus.available) ∧ ¬ (∃ o ∈ outcomes, o = SiteStatus.occupied) then
    FinalStatus.available
  else if ∃ o ∈ outcomes, o = SiteStatus.occupied then
    FinalStatus.occupied
  else if jsGtHalf
      ((outcomes.filter (fun o => o = SiteStatus.error)).length
        + (outcomes.filter (fun o => o = SiteStatus.unknown)).length)
      visitedSites.length then
    FinalStatus.needs_call
  else
    FinalStatus.unknown

/-- `PropertySearchTask.status` (`types/browser-mirror.ts`). -/
inductive TaskStatus
  | pending | in_progress | completed | task_error
  deriving DecidableEq, Repr

/-- `PropertySearchTask.result.availability`. -/
inductive Availability
  | available | occupied | unknown
  deriving DecidableEq, Repr

/-- `PropertySearchTask.result` (the `lastUpdated` wall-clock field is
outside the shallow embedding). -/
structure TaskResult where
  availability : Availability
  source : String
  deriving DecidableEq, Repr

/-- `PropertySearchTask` from `types/browser-mirror.ts`. -/
structure PropertySearchTask where
  id : String
  propertyName : String
  roomNumber : String
  address : String
  managementCompany : String
  status : TaskStatus
  result : Option TaskResult
  deriving DecidableEq, Repr

/-- `NotionPropertyResult` (the fields the engine populates;
`lastVerified` is a wall-clock field outside the embedding). -/
structure NotionPropertyResult where
  id : String
  propertyName : String
  roomNumber : String
  address : String
  managementCompany : String
  verificationResults : List VerificationSiteResult
  finalStatus : FinalStatus
  notes : String
  deriving DecidableEq, Repr

/-- Outcome of `initCredentials` (browser-mirror-engine.ts:70): either no
credentials file was detected (`noManager`), `getAllCredentials` threw
(`loadError` — caught inside `getAvailableSites`), or it returned a list. -/
inductive CredsState
  | noManager
  | loadError
  | loaded (creds : List SiteCredential)
  deriving DecidableEq, Repr

/-- The credential list that actually reaches the `sites` array in
`getAvailableSites`: empty when there is no manager or the load threw. -/
def credsOf : CredsState → List SiteCredential
  | CredsState.loaded creds => creds
  | _ => []

/-- `BrowserMirrorEngine.guessUrlFromSiteName` (browser-mirror-engine.ts:336). -/
def guessUrlFromSiteName (siteName : String) : String :=
  let lowerSite := jsToLower siteName
  if jsIncludes lowerSite "itandi" then "https://www.itandi.net/"
  else if jsIncludes lowerSite "いえらぶ" || jsIncludes lowerSite "ielove" then "https://www.ielove.co.jp/"
  else if jsIncludes lowerSite "athome" || jsIncludes lowerSite "アットホーム" then "https://www.athome.co.jp/"
  else if jsIncludes lowerSite "suumo" || jsIncludes lowerSite "スーモ" then "https://suumo.jp/"
  else if jsIncludes lowerSite "homes" || jsIncludes lowerSite "ホームズ" then "https://www.homes.co.jp/"
  else ""

/-- The site built from one credential inside `getAvailableSites`
(browser-mirror-engine.ts:309): `url: cred.url || guessUrlFromSiteName(...)`,
where `cred.url` is falsy exactly when it is the empty string. -/
def siteOfCredential (cred : SiteCredential) : Site :=
  { name := cred.siteName
    url := if cred.url = "" then guessUrlFromSiteName cred.siteName else cred.url
    credential := some cred }

/-- The fixed two-entry demo fallback pushed when no credential produced a
site (browser-mirror-engine.ts:324). -/
def demoSites : List Site :=
  [ { name := "ITANDI BB", url := "https://www.itandi.net/", credential := none }
  , { name := "いえらぶBB", url := "https://www.ielove.co.jp/", credential := none } ]

/-- `BrowserMirrorEngine.getAvailableSites` (browser-mirror-engine.ts:301). -/
def getAvailableSites (cs : CredsState) : List Site :=
  let sites := (credsOf cs).map siteOfCredential
  if sites.length = 0 then demoSites else sites

/-- The `searchSteps` list of `simulateSearch`
(browser-mirror-engine.ts:201): authenticated sequence when a credential is
present, public/demo sequence otherwise. -/
def searchSteps (property : PropertySearchTask) (siteName : String)
    (credential : Option SiteCredential) : List String :=
  match credential with
  | some credential =>
      [ "Analyzing " ++ siteName ++ " login interface"
      , "Locating username field"
      , "Entering username: " ++ credential.username
      , "Locating password field"
      , "Entering password"
      , "Clicking login button"
      , "Verifying successful login"
      , "Navigating to property search"
      , "Preparing search for \"" ++ property.propertyName ++ "\""
      , "Entering property details: " ++ property.address
      , "Searching internal database"
      , "Analyzing search results"
      , "Extracting availability status" ]
  | none =>
      [ "Analyzing " ++ siteName ++ " public interface"
      , "Looking for search functionality"
      , "Preparing to search for \"" ++ property.propertyName ++ "\""
      , "Entering property details"
      , "Searching available listings"
      , "Analyzing public search results"
      , "Checking availability status" ]

/-- `WebSocketMessage` (`types/browser-mirror.ts`): the four outbound
telemetry kinds.  `browser_state` keeps the fields the engine fills
(`status` is always `'running'` at these sites; `screenshot` is always
`null` on the main path). -/
inductive Msg
  | browser_state (currentSite currentAction aiThought : String)
      (current total : Nat) (progressSite : String)
  | ai_action (ty target description : String)
  | property_result (task : PropertySearchTask)
  | error_out (message : String)
  deriving DecidableEq, Repr

/-- `simulateAIThinking` (browser-mirror-engine.ts:241): one
`browser_state` message whose `currentAction` and `aiThought` both carry
the thought. -/
def simulateAIThinking (thought : String) (current total : Nat) (siteName : String) : Msg :=
  Msg.browser_state siteName thought thought current total siteName

/-- Is a message a `property_result` event? -/
def isPropertyResult : Msg → Bool
  | Msg.property_result _ => true
  | _ => false

/-- The messages emitted while visiting one site inside `verifyProperty`'s
site loop (browser-mirror-engine.ts:150-174), with the run flag true
throughout. `navFailed` says whether the navigation
(`page.goto`/`waitForLoadState`) threw for this site — the `catch` branch
then emits the informational "moving to next site" thought and the visit's
sub-steps are skipped. `observed` is the availability status actually
observable at the site during this visit: it is a modelled input of the
world, and faithfully to the source, nothing in the engine ever reads it
(`simulateSearch` only emits fixed descriptive strings). -/
def siteVisitMsgs (property : PropertySearchTask) (current total : Nat)
    (site : Site) (navFailed : Bool) (_observed : SiteStatus) : List Msg :=
  simulateAIThinking
      ("Navigating to " ++ site.name ++ " to search for " ++ property.propertyName)
      current total site.name
    :: Msg.ai_action "navigate" site.url ("Opening " ++ site.name)
    :: (if navFailed then
          [simulateAIThinking ("Error accessing " ++ site.name ++ ", moving to next site")
            current total site.name]
        else
          (searchSteps property site.name site.credential).map
            (fun step => simulateAIThinking step 0 0 site.name))

/-- `prepareNotionUpload` (browser-mirror-engine.ts:380): builds one
`VerificationSiteResult` per site with status hard-coded to `'available'`
(the source's `// TODO: 実際の確認結果に基づいて設定` line), then the
batched `NotionPropertyResult` with `determineFinalStatus` over them. -/
def prepareNotionUpload (property : PropertySearchTask) (sites : List Site) :
    NotionPropertyResult :=
  let siteResults : List VerificationSiteResult := sites.map (fun site =>
    { siteName := site.name
      url := site.url
      status := SiteStatus.available
      notes := match site.credential with
        | some cred => "認証情報利用: " ++ cred.username
        | none => "デモモード" })
  { id := property.id
    propertyName := property.propertyName
    roomNumber := property.roomNumber
    address := property.address
    managementCompany := property.managementCompany
    verificationResults := siteResults
    finalStatus := determineFinalStatus siteResults
    notes := "自動物確実行: " ++ toString siteResults.length ++ "サイト確認" }

/-- The fixed completed task built at the end of `verifyProperty`
(browser-mirror-engine.ts:177): status `completed` and a hard-coded
`result` (`availability: 'available'`, `source: 'ITANDI BB'`), built from
no site-visit data. -/
def completedTask (property : PropertySearchTask) : PropertySearchTask :=
  { property with
      status := TaskStatus.completed
      result := some { availability := Availability.available, source := "ITANDI BB" } }

/-- `verifyProperty` (browser-mirror-engine.ts:137), with the run flag true
throughout (every site of the task is visited — the "all sites visited"
case of the spec).  Inputs: the resolved site list, whether navigation
threw per site index, and the per-site observable status (never read by the
source).  Output: the emitted messages, the mutated task, and the
`NotionPropertyResult` appended to `verifiedResults` for later upload. -/
def verifyProperty (property : PropertySearchTask) (current total : Nat)
    (sites : List Site) (navFailed : Nat → Bool) (observed : Nat → SiteStatus) :
    List Msg × PropertySearchTask × NotionPropertyResult :=
  let visitMsgs :=
    sites.enum.flatMap (fun js =>
      siteVisitMsgs property current total js.2 (navFailed js.1) (observed js.1))
  let task := completedTask property
  (visitMsgs ++ [Msg.property_result task], task, prepareNotionUpload task sites)

/-- The engine-instance state that the claims are about: the single-flight
flag and the batched upload list (browser-mirror-engine.ts:11,14).  The
browser/page/interval handles are resources outside the shallow
embedding. -/
structure EngineState where
  isRunning : Bool
  verifiedResults : List NotionPropertyResult
  deriving DecidableEq, Repr

/-- The external world of one run: the credentials-loading outcome, whether
the browser session initialized, and per (property index, site index) the
navigation failure and the observable status. -/
structure RunEnv where
  creds : CredsState
  browserOk : Bool
  navFailed : Nat → Nat → Bool
  observed : Nat → Nat → SiteStatus

/-- `uploadResultsToNotion` (browser-mirror-engine.ts:415): telemetry of the
final batched upload.  In the source every per-item upload is a simulated
success, so only the all-success path is reachable. -/
def uploadResultsToNotion (results : List NotionPropertyResult) : List Msg :=
  if results.length = 0 then []
  else
    Msg.browser_state "Notion"
        ("Notionに" ++ toString results.length ++ "件の結果をアップロード中...")
        "すべての物確が完了しました。結果をNotionデータベースに保存しています。"
        0 0 "Notion Upload"
      :: (results.enum.map (fun ir =>
            Msg.browser_state "Notion"
              ("Notion アップロード中... (" ++ toString (ir.1 + 1) ++ "/"
                ++ toString results.length ++ ")")
              (ir.2.propertyName ++ " の結果をNotionに保存しました。")
              (ir.1 + 1) results.length "Notion Upload")
          ++ [Msg.browser_state "Notion" "✅ Notionアップロード完了"
                (toString results.length ++ "件の物確結果がNotionに保存されました。")
                results.length results.length "Complete"])

/-- `startVerification` (browser-mirror-engine.ts:16) as a state
transformer, with the run left to completion (`stop()` never called; the
cancellation structure is modelled separately by `runTrace`).  If a run is
already active it is the guarded no-op.  Otherwise the flag is set, the run
executes (credentials-load failure or browser-init failure reach the
`catch` that emits one `error` message), and the `finally` clears the flag;
`uploadResultsToNotion` empties `verifiedResults` at the end. -/
def startVerification (st : EngineState) (env : RunEnv)
    (properties : List PropertySearchTask) : EngineState × List Msg :=
  if st.isRunning then (st, [])
  else if env.creds = CredsState.loadError then
    ({ st with isRunning := false },
      [Msg.error_out "Verification failed: Error: Failed to load credentials"])
  else if env.browserOk = false then
    ({ st with isRunning := false },
      [Msg.error_out "Verification failed: Error: Failed to initialize browser"])
  else
    let sites := getAvailableSites env.creds
    let startMsg := Msg.browser_state "Initializing..."
      "Setting up browser for property verification"
      "Starting automated property verification process"
      0 properties.length "Setup"
    let perProp := properties.enum.map (fun ip =>
      verifyProperty ip.2 (ip.1 + 1) properties.length sites
        (env.navFailed ip.1) (env.observed ip.1))
    let allResults := st.verifiedResults ++ perProp.map (fun r => r.2.2)
    ({ isRunning := false, verifiedResults := [] },
      startMsg :: perProp.flatMap (fun r => r.1) ++ uploadResultsToNotion allResults)

/-- The loop-boundary begin events of one run: a property iteration, a site
visit, or a sub-step beginning. -/
inductive Ev
  | prop_begin (i : Nat)
  | site_begin (i j : Nat)
  | step_begin (i j k : Nat)
  deriving DecidableEq, Repr

/-- Sub-step loop of `simulateSearch` (browser-mirror-engine.ts:233):
`if (!this.isRunning) break` before each sub-step.  The flag is modelled by
the check counter `c` against the stop point `T`: the first `T` checks of
the run read `true`, all later ones read `false` (`stop()` flips the flag
once, between two checks, and nothing sets it back during a run). -/
def runStepsT (T c i j k : Nat) (steps : List String) : List Ev :=
  match steps with
  | [] => []
  | _ :: rest =>
      if c < T then Ev.step_begin i j k :: runStepsT T (c + 1) i j (k + 1) rest
      else []

/-- The sub-step events of one site visit: none when the navigation threw
(the `catch` branch skips `simulateSearch`), else the guarded sub-step
loop over that site's `searchSteps`. -/
def stepEvsOfSite (T c i j : Nat) (property : PropertySearchTask) (site : Site)
    (navFailed : Nat → Bool) : List Ev :=
  if navFailed j then []
  else runStepsT T c i j 0 (searchSteps property site.name site.credential)

/-- Site loop of `verifyProperty` (browser-mirror-engine.ts:150):
`if (!this.isRunning) break` before each site; a failed navigation skips
that site's sub-steps (`catch` branch). -/
def runSitesT (T c i j : Nat) (property : PropertySearchTask) (sites : List Site)
    (navFailed : Nat → Bool) : List Ev :=
  match sites with
  | [] => []
  | site :: rest =>
      if c < T then
        Ev.site_begin i j :: stepEvsOfSite T (c + 1) i j property site navFailed
          ++ runSitesT T (c + 1 + (stepEvsOfSite T (c + 1) i j property site navFailed).length)
              i (j + 1) property rest navFailed
      else []

/-- Property loop of `startVerification` (browser-mirror-engine.ts:49):
`if (!this.isRunning) break` before each property. -/
def runPropsT (T c i : Nat) (tasks : List PropertySearchTask) (sites : List Site)
    (navFailed : Nat → Nat → Bool) : List Ev :=
  match tasks with
  | [] => []
  | t :: rest =>
      if c < T then
        Ev.prop_begin i :: runSitesT T (c + 1) i 0 t sites (navFailed i)
          ++ runPropsT T (c + 1 + (runSitesT T (c + 1) i 0 t sites (navFailed i)).length)
              (i + 1) rest sites navFailed
      else []

/-- The begin-event trace of a run in which the cooperative stop takes
effect after the `T`-th loop-boundary check (`T` large enough means the run
is never stopped). -/
def runTrace (env : RunEnv) (tasks : List PropertySearchTask) (T : Nat) : List Ev :=
  runPropsT T 0 0 tasks (getAvailableSites env.creds) env.navFailed

/-! ## Credentials manager (`credentials-manager.ts`) -/

/-- The synonym set for the site-name column. -/
def siteNameTerms : List String := ["サイト名", "site", "sitename", "name"]

/-- The synonym set for the URL column. -/
def urlTerms : List String := ["url", "アドレス", "サイト", "website"]

/-- The synonym set for the username column. -/
def usernameTerms : List String := ["ユーザー名", "username", "user", "id", "ログインid"]

/-- The synonym set for the password column. -/
def passwordTerms : List String := ["パスワード", "password", "pass", "pw"]

/-- The synonym set for the notes column. -/
def notesTerms : List String := ["備考", "notes", "memo", "注記"]

/-- `findColumnIndex` (credentials-manager.ts:503): index of the first
header containing one of the search terms as a substring, `-1` when none
does.  Expressed as structural recursion over the header list; the result
is an `Int` because `-1` is a live value in the source. -/
def findColumnIndex (headers : List String) (searchTerms : List String) : Int :=
  match headers with
  | [] => -1
  | h :: rest =>
      if searchTerms.any (fun term => jsIncludes h term) then 0
      else
        let r := findColumnIndex rest searchTerms
        if r = -1 then -1 else r + 1

/-- The resolved column indices of `parseCredentialsData`. -/
structure ColumnIndices where
  siteName : Int
  url : Int
  username : Int
  password : Int
  notes : Int
  deriving DecidableEq, Repr

/-- JS `row[i]` for an `Int` index: `undefined` (`none`) when negative or
out of range. -/
def rowGet (row : List String) (i : Int) : Option String :=
  if i < 0 then none else row.get? i.toNat

/-- The header-resolution part of `parseCredentialsData`
(credentials-manager.ts:423-445): headers are lowercased, each field's
column is found by `findColumnIndex`, and when any mandatory column
(site name, username, password) was not found and there are at least three
columns, the positional fallback maps columns 0,1,2 to
name/username/password, with column 3 as URL when present. -/
def computeIndices (headerRow : List String) : ColumnIndices :=
  let headers := headerRow.map jsToLower
  let fuzzy : ColumnIndices :=
    { siteName := findColumnIndex headers siteNameTerms
      url := findColumnIndex headers urlTerms
      username := findColumnIndex headers usernameTerms
      password := findColumnIndex headers passwordTerms
      notes := findColumnIndex headers notesTerms }
  if fuzzy.siteName = -1 ∨ fuzzy.username = -1 ∨ fuzzy.password = -1 then
    if headers.length ≥ 3 then
      { fuzzy with
          siteName := 0, username := 1, password := 2
          url := if headers.length > 3 then (3 : Int) else -1 }
    else fuzzy
  else fuzzy

/-- The per-row body of `parseCredentialsData`'s loop
(credentials-manager.ts:449-465): empty rows are skipped; a credential is
pushed exactly when the site-name, username and password cells are present
and non-empty after trimming (JS truthiness of the trimmed strings); URL
and notes default to `''`. -/
def rowToCredential (indices : ColumnIndices) (row : List String) : Option SiteCredential :=
  if row.length = 0 then none
  else
    match (rowGet row indices.siteName).map jsTrim,
        (rowGet row indices.username).map jsTrim,
        (rowGet row indices.password).map jsTrim with
    | some sn, some un, some pw =>
        if sn ≠ "" ∧ un ≠ "" ∧ pw ≠ "" then
          some { siteName := sn
                 url := if indices.url ≥ 0 then
                     ((rowGet row indices.url).map jsTrim).getD "" else ""
                 username := un
                 password := pw
                 notes := if indices.notes ≥ 0 then
                     ((rowGet row indices.notes).map jsTrim).getD "" else "" }
        else none
    | _, _, _ => none

/-- `parseCredentialsData` (credentials-manager.ts:418): the spreadsheet
(2-D array) parser.  Fewer than two rows is the hard format error; otherwise
each data row yields at most one credential via `rowToCredential`. -/
def parseCredentialsData (data : List (List String)) : Except String (List SiteCredential) :=
  if data.length < 2 then Except.error "Invalid credentials file format"
  else
    let indices := computeIndices (data.headD [])
    Except.ok (data.tail.filterMap (rowToCredential indices))

/-- The object list produced by `csv-parser` from a delimited-text file:
one association list per data row, keyed by the header line in order. -/
def csvParse (headers : List String) (rows : List (List String)) :
    List (List (String × String)) :=
  rows.map (fun r => headers.zip r)

/-- `findValueByKeys` (credentials-manager.ts:516): the value of the first
key whose lowercased form contains one of the (lowercased) search keys,
trimmed; an empty trimmed value yields `null` (`none`), and scanning does
not continue past the first matching key. -/
def findValueByKeys (obj : List (String × String)) (searchKeys : List String) : Option String :=
  match obj with
  | [] => none
  | (k, v) :: rest =>
      if searchKeys.any (fun sk => jsIncludes (jsToLower k) (jsToLower sk)) then
        if jsTrim v = "" then none else some (jsTrim v)
      else findValueByKeys rest searchKeys

/-- `parseCredentialsFromObjects` (credentials-manager.ts:473): the
delimited-text parser over `csv-parser` objects.  Note it has no row-count
check of its own. -/
def parseCredentialsFromObjects (data : List (List (String × String))) : List SiteCredential :=
  data.filterMap (fun item =>
    match findValueByKeys item siteNameTerms,
        findValueByKeys item usernameTerms,
        findValueByKeys item passwordTerms with
    | some sn, some un, some pw =>
        some { siteName := sn
               url := (findValueByKeys item urlTerms).getD ""
               username := un
               password := pw
               notes := (findValueByKeys item notesTerms).getD "" }
    | _, _, _ => none)

/-- A credentials source: a spreadsheet (read via `readExcelFile` →
`parseCredentialsData`) or a delimited-text file (read via `readCsvFile` →
`csv-parser` → `parseCredentialsFromObjects`).  The `csv` case carries the
raw table (header line + data lines) so that row counts are visible. -/
inductive CredSource
  | excel (data : List (List String))
  | csv (headers : List String) (rows : List (List String))
  deriving Repr

/-- The parsing dispatch inside `loadCredentials`
(credentials-manager.ts:359-363). -/
def parseSource : CredSource → Except String (List SiteCredential)
  | CredSource.excel data => parseCredentialsData data
  | CredSource.csv headers rows =>
      Except.ok (parseCredentialsFromObjects (csvParse headers rows))

/-- The loader-instance state: the `cache` field of `CredentialsManager`
(the `lastUpdated` timestamp is outside the embedding). -/
structure ManagerState where
  cache : Option (List SiteCredential)
  deriving DecidableEq, Repr

/-- `loadCredentials` (credentials-manager.ts:347): returns the cache when
present and `forceRefresh` is false; otherwise parses the source, caching
on success (a parse failure is rethrown wrapped and leaves the cache
unchanged). -/
def loadCredentials (src : CredSource) (forceRefresh : Bool) (st : ManagerState) :
    Except String (List SiteCredential) × ManagerState :=
  match st.cache, forceRefresh with
  | some sites, false => (Except.ok sites, st)
  | _, _ =>
      match parseSource src with
      | Except.ok sites => (Except.ok sites, { cache := some sites })
      | Except.error e => (Except.error ("Failed to load credentials: " ++ e), st)

/-- `clearCache` (credentials-manager.ts:549). -/
def clearCache (_st : ManagerState) : ManagerState :=
  { cache := none }

end Bukkatsu

namespace Bukkatsu

/-! ## Theorems -/

/-- A fixed environment used by witnesses: no credentials file, browser
initializes, no navigation failures, nothing observable. -/
def plainEnv : RunEnv :=
  { creds := CredsState.noManager
    browserOk := true
    navFailed := fun _ _ => false
    observed := fun _ _ => SiteStatus.unknown }

/-- A fixed concrete property task used by witnesses. -/
def sampleTask : PropertySearchTask :=
  { id := "1", propertyName := "パークコート赤坂", roomNumber := "101"
    address := "東京都港区", managementCompany := "森ビル"
    status := TaskStatus.pending, result := none }

/-- C3: a second `start()` while a run is active is a no-op — the state is
returned unchanged (only a console log happens in the source) and no
telemetry message is emitted, so an engine instance never has two active
runs. -/
theorem startVerification_singleFlight (st : EngineState) (env : RunEnv)
    (properties : List PropertySearchTask) (h : st.isRunning = true) :
    startVerification st env properties = (st, []) := by
  simp [startVerification, h]

/-- Witness for C3 at a concrete busy engine state. -/
theorem startVerification_singleFlight_witness :
    startVerification ⟨true, []⟩ plainEnv [sampleTask] = (⟨true, []⟩, []) :=
  startVerification_singleFlight ⟨true, []⟩ plainEnv [sampleTask] rfl

/-- The substring keywords of `guessUrlFromSiteName`'s fixed
name → URL table. -/
def guessKeywords : List String :=
  ["itandi", "いえらぶ", "ielove", "athome", "アットホーム", "suumo", "スーモ", "homes", "ホームズ"]

/-- C8: site resolution never fails.  With an empty credential list the
result is exactly the fixed two-entry demo list; otherwise each credential
becomes a site whose URL, when the credential's URL is empty, is filled by
`guessUrlFromSiteName` — a case-insensitive (lowercasing both sides)
substring match against a fixed table including local-script keywords,
defaulting to the empty string when no keyword matches. -/
theorem getAvailableSites_spec (cs : CredsState) :
    (credsOf cs = [] → getAvailableSites cs = demoSites) ∧
    (credsOf cs ≠ [] → getAvailableSites cs = (credsOf cs).map siteOfCredential) ∧
    (∀ cred : SiteCredential,
      (siteOfCredential cred).name = cred.siteName ∧
      (cred.url ≠ "" → (siteOfCredential cred).url = cred.url) ∧
      (cred.url = "" → (siteOfCredential cred).url = guessUrlFromSiteName cred.siteName)) ∧
    (∀ n₁ n₂ : String, jsToLower n₁ = jsToLower n₂ →
      guessUrlFromSiteName n₁ = guessUrlFromSiteName n₂) ∧
    (∀ siteName : String,
      (∀ kw ∈ guessKeywords, jsIncludes (jsToLower siteName) kw = false) →
      guessUrlFromSiteName siteName = "") := by
  refine ⟨?_, ?_, ?_, ?_, ?_⟩
  · intro h
    simp [getAvailableSites, h]
  · intro h
    simp [getAvailableSites, List.length_eq_zero, List.map_eq_nil_iff, h]
  · intro cred
    refine ⟨rfl, ?_, ?_⟩
    · intro h
      simp [siteOfCredential, h]
    · intro h
      simp [siteOfCredential, h]
  · intro n₁ n₂ h
    simp only [guessUrlFromSiteName, h]
  · intro siteName h
    have h1 := h "itandi" (by simp [guessKeywords])
    have h2 := h "いえらぶ" (by simp [guessKeywords])
    have h3 := h "ielove" (by simp [guessKeywords])
    have h4 := h "athome" (by simp [guessKeywords])
    have h5 := h "アットホーム" (by simp [guessKeywords])
    have h6 := h "suumo" (by simp [guessKeywords])
    have h7 := h "スーモ" (by simp [guessKeywords])
    have h8 := h "homes" (by simp [guessKeywords])
    have h9 := h "ホームズ" (by simp [guessKeywords])
    simp [guessUrlFromSiteName, h1, h2, h3, h4, h5, h6, h7, h8, h9]

/-- Witness for C8: the empty-credential fallback and the no-match default
at concrete inputs. -/
theorem getAvailableSites_spec_witness :
    getAvailableSites CredsState.noManager = demoSites ∧
    guessUrlFromSiteName "Fancy Portal" = "" :=
  ⟨(getAvailableSites_spec CredsState.noManager).1 rfl,
   (getAvailableSites_spec CredsState.noManager).2.2.2.2 "Fancy Portal" (by decide)⟩

/-- C10: for every property prepared with a non-empty site list, the
batched `NotionPropertyResult` has every per-site status hard-coded to
`'available'` and hence `finalStatus = 'available'`, independent of the
navigation failures and observable statuses of the actual visits (which are
not even inputs of `prepareNotionUpload`). -/
theorem prepareNotionUpload_hardcoded_available (property : PropertySearchTask)
    (sites : List Site) (h : sites ≠ []) :
    (∀ r ∈ (prepareNotionUpload property sites).verificationResults,
      r.status = SiteStatus.available) ∧
    (prepareNotionUpload property sites).finalStatus = FinalStatus.available := by
  constructor
  · intro r hr
    simp only [prepareNotionUpload, List.mem_map] at hr
    obtain ⟨site, _, rfl⟩ := hr
    rfl
  · have hlen : 0 < sites.length := List.length_pos.2 h
    simp only [prepareNotionUpload, determineFinalStatus]
    rw [ List.filter_map, List.filter_map]
    simp [Function.comp_def, hlen]

/-- Witness for C10 on the demo site list. -/
theorem prepareNotionUpload_hardcoded_available_witness :
    (prepareNotionUpload sampleTask demoSites).finalStatus = FinalStatus.available :=
  (prepareNotionUpload_hardcoded_available sampleTask demoSites (by decide)).2

/-- C1: with one outcome recorded per visited site (as at the only call
site, where `siteResults` has exactly one entry per visited site), the
engine's `determineFinalStatus` computes exactly the spec's precedence:
available if some available and no occupied; else occupied if some
occupied; else `needs_call` when the error+unknown count strictly exceeds
half the visited-site count under non-integer division (`jsGtHalf`, proved
equal to the ℚ comparison by `jsGtHalf_iff_rat`); else unknown. -/
theorem determineFinalStatus_spec (siteResults : List VerificationSiteResult)
    (visitedSites : List Site) (h : siteResults.length = visitedSites.length) :
    determineFinalStatus siteResults
      = specFinalize (siteResults.map (fun r => r.status)) visitedSites := by
  have hmapfilter : ∀ s : SiteStatus,
      ((siteResults.map (fun r => r.status)).filter (fun o => o = s)).length
        = (siteResults.filter (fun r => r.status = s)).length := by
    intro s
    rw [ List.filter_map, List.length_map]
    rfl
  have hmapex : ∀ s : SiteStatus,
      (∃ o ∈ siteResults.map (fun r => r.status), o = s)
        ↔ 0 < (siteResults.filter (fun r => r.status = s)).length := by
    intro s
    rw [← List.countP_eq_length_filter, List.countP_pos_iff]
    simp
  simp only [determineFinalStatus, specFinalize, hmapfilter, hmapex, ← h]
  split_ifs <;> first | rfl | omega

/-- Witness for C1: the exact `[unknown]`-over-one-site boundary — one
inconclusive outcome out of one visited site escalates to `needs_call`
(1 > 0.5 under real division). -/
theorem determineFinalStatus_spec_witness :
    determineFinalStatus [⟨"ITANDI BB", "", SiteStatus.unknown, ""⟩]
      = specFinalize [SiteStatus.unknown]
          [⟨"ITANDI BB", "https://www.itandi.net/", none⟩] ∧
    determineFinalStatus [⟨"ITANDI BB", "", SiteStatus.unknown, ""⟩]
      = FinalStatus.needs_call :=
  ⟨determineFinalStatus_spec [⟨"ITANDI BB", "", SiteStatus.unknown, ""⟩]
      [⟨"ITANDI BB", "https://www.itandi.net/", none⟩] rfl,
   by decide⟩

/-- C2 (amended): whenever all sites of a task have been visited, the task
is completed with status `completed`, exactly one `property_result`
telemetry event carries it, and its `result` is the fixed constant
`{availability: 'available', source: 'ITANDI BB'}` — built from no
site-visit data (the site list, navigation failures and observable
statuses are all irrelevant to it). -/
theorem verifyProperty_completion (property : PropertySearchTask)
    (current total : Nat) (sites : List Site)
    (navFailed : Nat → Bool) (observed : Nat → SiteStatus) :
    (verifyProperty property current total sites navFailed observed).2.1.status
        = TaskStatus.completed ∧
    (verifyProperty property current total sites navFailed observed).2.1.result
        = some { availability := Availability.available, source := "ITANDI BB" } ∧
    (verifyProperty property current total sites navFailed observed).1.countP
        isPropertyResult = 1 := by
  refine ⟨rfl, rfl, ?_⟩
  simp only [verifyProperty]
  rw [List.countP_append]
  have h0 : (sites.enum.flatMap (fun js =>
      siteVisitMsgs property current total js.2 (navFailed js.1) (observed js.1))).countP
        isPropertyResult = 0 := by
    rw [List.countP_eq_zero]
    intro m hm
    rw [List.mem_flatMap] at hm
    obtain ⟨js, _, hmem⟩ := hm
    simp only [siteVisitMsgs, simulateAIThinking, List.mem_cons] at hmem
    rcases hmem with rfl | rfl | hmem
    · simp [isPropertyResult]
    · simp [isPropertyResult]
    · split at hmem
      · simp only [List.mem_singleton] at hmem
        subst hmem
        simp [isPropertyResult]
      · simp only [List.mem_map] at hmem
        obtain ⟨step, _, rfl⟩ := hmem
        simp [isPropertyResult]
  rw [h0]
  simp [isPropertyResult]

/-- C2, counterexample to the claim as stated: a concrete run over the two
demo sites in which every actual site-visit outcome is `occupied` (so the
spec-modelled Result Aggregator precedence over the accumulated outcomes
yields `occupied`), yet the completed task's `result` still reads
`available` from `ITANDI BB`: the `result` is the hard-coded constant, not
set from the accumulated site-visit outcomes. -/
theorem verifyProperty_result_ignores_outcomes :
    (verifyProperty sampleTask 1 1 demoSites (fun _ => false)
        (fun _ => SiteStatus.occupied)).2.1.result
      = some { availability := Availability.available, source := "ITANDI BB" } ∧
    specFinalize (demoSites.map (fun _ => SiteStatus.occupied)) demoSites
      = FinalStatus.occupied ∧
    FinalStatus.available ≠ FinalStatus.occupied :=
  ⟨rfl, by decide, by decide⟩

/-- C9: the loader parses at most once per instance — a second `load`
without `forceRefresh` returns the first call's records and state unchanged
for ANY second source (no re-read); `forceRefresh` bypasses the cache and
re-parses; `clearCache` invalidates so the next `load` re-parses. -/
theorem loadCredentials_cache_spec (src src₂ : CredSource) (st : ManagerState) :
    (∀ sites st₁, loadCredentials src false st = (Except.ok sites, st₁) →
      loadCredentials src₂ false st₁ = (Except.ok sites, st₁)) ∧
    (∀ sites, parseSource src₂ = Except.ok sites →
      loadCredentials src₂ true st = (Except.ok sites, { cache := some sites })) ∧
    (∀ sites, parseSource src₂ = Except.ok sites →
      loadCredentials src₂ false (clearCache st)
        = (Except.ok sites, { cache := some sites })) := by
  obtain ⟨cache⟩ := st
  refine ⟨?_, ?_, ?_⟩
  · intro sites st₁ h
    cases cache with
    | some c =>
        simp only [loadCredentials] at h
        injection h with h1 h2
        injection h1 with h1
        subst h1
        subst h2
        simp [loadCredentials]
    | none =>
        simp only [loadCredentials] at h
        cases hp : parseSource src with
        | ok s =>
            rw [hp] at h
            injection h with h1 h2
            injection h1 with h1
            subst h1
            subst h2
            simp [loadCredentials]
        | error e =>
            rw [hp] at h
            injection h with h1 h2
            exact absurd h1 (by simp)
  · intro sites hp
    cases cache <;> simp [loadCredentials, hp]
  · intro sites hp
    simp [clearCache, loadCredentials, hp]

/-- Witness for C9: a concrete delimited source is parsed once; a second
`load` against a source that would not even parse returns the cached
records untouched; `forceRefresh` and `clearCache` re-parse. -/
theorem loadCredentials_cache_spec_witness :
    loadCredentials (CredSource.excel [["broken"]]) false
        ⟨some [{ siteName := "A", url := "", username := "u", password := "p", notes := "" }]⟩
      = (Except.ok [{ siteName := "A", url := "", username := "u", password := "p", notes := "" }],
          ⟨some [{ siteName := "A", url := "", username := "u", password := "p", notes := "" }]⟩) ∧
    loadCredentials (CredSource.csv ["name", "user", "pass"] [["A", "u", "p"]]) true ⟨none⟩
      = (Except.ok [{ siteName := "A", url := "", username := "u", password := "p", notes := "" }],
          ⟨some [{ siteName := "A", url := "", username := "u", password := "p", notes := "" }]⟩) :=
  ⟨(loadCredentials_cache_spec (CredSource.csv ["name", "user", "pass"] [["A", "u", "p"]])
      (CredSource.excel [["broken"]]) ⟨none⟩).1
      [{ siteName := "A", url := "", username := "u", password := "p", notes := "" }]
      ⟨some [{ siteName := "A", url := "", username := "u", password := "p", notes := "" }]⟩ rfl,
   (loadCredentials_cache_spec (CredSource.csv ["name", "user", "pass"] [["A", "u", "p"]])
      (CredSource.csv ["name", "user", "pass"] [["A", "u", "p"]]) ⟨none⟩).2.1
      [{ siteName := "A", url := "", username := "u", password := "p", notes := "" }] rfl⟩

/-- C5, counterexample to the claim as stated: a delimited-text (CSV)
source whose table is a single header row (`csv-parser` yields no data
objects) makes `load()` return an empty — i.e. partial — record list with
no `FormatError`: the fewer-than-two-rows hard error exists only on the
spreadsheet path (`parseCredentialsData`), not on the CSV path
(`parseCredentialsFromObjects`). -/
theorem loadCredentials_singleRow_csv_returns_ok :
    loadCredentials (CredSource.csv ["サイト名", "ユーザー名", "パスワード"] []) false ⟨none⟩
      = (Except.ok [], { cache := some [] }) := rfl

/-- C5 (amended): a spreadsheet source with fewer than two rows makes
`load()` raise the hard format error and return no partial list (the cache
is left unset), while a delimited-text source with only a header row
returns the empty list without error. -/
theorem loadCredentials_formatError_spreadsheet_only (data : List (List String))
    (h : data.length < 2) :
    (∀ st : ManagerState, st.cache = none →
      loadCredentials (CredSource.excel data) false st
        = (Except.error "Failed to load credentials: Invalid credentials file format", st)) ∧
    (∀ headers : List String,
      loadCredentials (CredSource.csv headers []) false ⟨none⟩
        = (Except.ok [], { cache := some [] })) := by
  constructor
  · intro st hcache
    obtain ⟨cache⟩ := st
    simp only at hcache
    subst hcache
    simp [loadCredentials, parseSource, parseCredentialsData, h]
  · intro headers
    simp [loadCredentials, parseSource, csvParse, parseCredentialsFromObjects]

/-- Witness for C5's amended statement at a concrete one-row spreadsheet. -/
theorem loadCredentials_formatError_spreadsheet_only_witness :
    loadCredentials (CredSource.excel [["x"]]) false ⟨none⟩
      = (Except.error "Failed to load credentials: Invalid credentials file format",
          (⟨none⟩ : ManagerState)) :=
  (loadCredentials_formatError_spreadsheet_only [["x"]] (by decide)).1 ⟨none⟩ rfl

/-- `findColumnIndex` yields `-1` or a natural index. -/
theorem findColumnIndex_cases (headers terms : List String) :
    findColumnIndex headers terms = -1 ∨
    ∃ n : ℕ, findColumnIndex headers terms = (n : Int) := by
  induction headers with
  | nil => left; rfl
  | cons hd rest ih =>
      simp only [findColumnIndex]
      by_cases hm : terms.any (fun term => jsIncludes hd term) = true
      · right
        exact ⟨0, by rw [if_pos hm]; rfl⟩
      · rw [if_neg hm]
        rcases ih with h | ⟨n, h⟩
        · left
          rw [h, if_pos rfl]
        · right
          refine ⟨n + 1, ?_⟩
          rw [h, if_neg (by omega)]
          push_cast
          ring

/-- `findColumnIndex` is `-1` exactly when no header contains any search
term as a substring. -/
theorem findColumnIndex_eq_neg_one (headers terms : List String) :
    findColumnIndex headers terms = -1 ↔
    ∀ hd ∈ headers, terms.any (fun term => jsIncludes hd term) = false := by
  induction headers with
  | nil => simp [findColumnIndex]
  | cons hd rest ih =>
      simp only [findColumnIndex]
      by_cases hm : terms.any (fun term => jsIncludes hd term) = true
      · rw [if_pos hm]
        constructor
        · intro h0
          exact absurd h0 (by omega)
        · intro hall
          have hfalse := hall hd (List.mem_cons_self hd rest)
          rw [hfalse] at hm
          simp at hm
      · rw [if_neg hm]
        rcases findColumnIndex_cases rest terms with h | ⟨n, h⟩
        · rw [h, if_pos rfl]
          constructor
          · intro _ x hx
            rcases List.mem_cons.1 hx with rfl | hx2
            · exact Bool.eq_false_iff.2 hm
            · exact (ih.1 h) x hx2
          · intro _
            rfl
        · rw [h, if_neg (by omega)]
          constructor
          · intro hcon
            exact absurd hcon (by omega)
          · intro hall
            have : findColumnIndex rest terms = -1 :=
              ih.2 (fun x hx => hall x (List.mem_cons_of_mem _ hx))
            omega

/-- A natural `findColumnIndex` result is the FIRST header containing one
of the search terms: that header matches, and every earlier one does
not. -/
theorem findColumnIndex_nat (headers terms : List String) (i : ℕ)
    (h : findColumnIndex headers terms = (i : Int)) :
    (∃ hd, headers.get? i = some hd ∧
      terms.any (fun term => jsIncludes hd term) = true) ∧
    ∀ j, j < i → ∀ hd, headers.get? j = some hd →
      terms.any (fun term => jsIncludes hd term) = false := by
  induction headers generalizing i with
  | nil =>
      simp only [findColumnIndex] at h
      exact absurd h (by omega)
  | cons hd rest ih =>
      simp only [findColumnIndex] at h
      by_cases hm : terms.any (fun term => jsIncludes hd term) = true
      · rw [if_pos hm] at h
        have hi : i = 0 := by omega
        subst hi
        exact ⟨⟨hd, rfl, hm⟩, fun j hj => absurd hj (by omega)⟩
      · rw [if_neg hm] at h
        rcases findColumnIndex_cases rest terms with hr | ⟨n, hr⟩
        · rw [hr, if_pos rfl] at h
          exact absurd h (by omega)
        · rw [hr, if_neg (by omega)] at h
          have hi : i = n + 1 := by omega
          subst hi
          obtain ⟨hex, hall⟩ := ih n hr
          refine ⟨by simpa using hex, ?_⟩
          intro j hj hd' hget
          cases j with
          | zero =>
              simp only [List.get?] at hget
              injection hget with hget
              subst hget
              exact Bool.eq_false_iff.2 hm
          | succ j' =>
              exact hall j' (by omega) hd' (by simpa using hget)

/-- C6: credential column resolution.  (i) It depends only on the
lowercased header texts (case-insensitive); (ii) a fuzzily resolved index
is the first (lowercased) header containing one of that field's synonyms
as a substring; (iii) when all three mandatory columns are fuzzily found,
the fuzzy assignment is used as-is; (iv) when fuzzy matching misses a
mandatory field and at least three columns exist, the positional fallback
assigns columns 1-4 to name, username, password, url. -/
theorem credentialColumnResolution (headerRow : List String) :
    (∀ other : List String, other.map jsToLower = headerRow.map jsToLower →
      computeIndices other = computeIndices headerRow) ∧
    (∀ terms : List String, ∀ i : ℕ,
      findColumnIndex (headerRow.map jsToLower) terms = (i : Int) →
      (∃ hd, (headerRow.map jsToLower).get? i = some hd ∧
        terms.any (fun term => jsIncludes hd term) = true) ∧
      ∀ j, j < i → ∀ hd, (headerRow.map jsToLower).get? j = some hd →
        terms.any (fun term => jsIncludes hd term) = false) ∧
    ((findColumnIndex (headerRow.map jsToLower) siteNameTerms ≠ -1 ∧
      findColumnIndex (headerRow.map jsToLower) usernameTerms ≠ -1 ∧
      findColumnIndex (headerRow.map jsToLower) passwordTerms ≠ -1) →
      computeIndices headerRow =
        { siteName := findColumnIndex (headerRow.map jsToLower) siteNameTerms
          url := findColumnIndex (headerRow.map jsToLower) urlTerms
          username := findColumnIndex (headerRow.map jsToLower) usernameTerms
          password := findColumnIndex (headerRow.map jsToLower) passwordTerms
          notes := findColumnIndex (headerRow.map jsToLower) notesTerms }) ∧
    (¬(findColumnIndex (headerRow.map jsToLower) siteNameTerms ≠ -1 ∧
       findColumnIndex (headerRow.map jsToLower) usernameTerms ≠ -1 ∧
       findColumnIndex (headerRow.map jsToLower) passwordTerms ≠ -1) →
      3 ≤ headerRow.length →
      computeIndices headerRow =
        { siteName := 0
          url := if 3 < headerRow.length then (3 : Int) else -1
          username := 1, password := 2
          notes := findColumnIndex (headerRow.map jsToLower) notesTerms }) := by
  refine ⟨?_, ?_, ?_, ?_⟩
  · intro other hmap
    simp only [computeIndices, hmap]
  · intro terms i hi
    exact findColumnIndex_nat _ _ i hi
  · intro hfound
    simp only [computeIndices]
    rw [if_neg (by tauto)]
  · intro hmiss hlen
    simp only [computeIndices]
    rw [if_pos (by tauto), if_pos (by simpa using hlen)]
    simp [List.length_map]

/-- Witness for C6: a header row with unrecognizable mandatory headers and
four columns triggers the positional fallback. -/
theorem credentialColumnResolution_witness :
    computeIndices ["a", "b", "c", "d"] =
      { siteName := 0, url := 3, username := 1, password := 2, notes := -1 } :=
  (credentialColumnResolution ["a", "b", "c", "d"]).2.2.2 (by decide) (by decide)

/-- The spec's mandatory-field test for a data row (C7): site name,
username and password cells all present and non-empty after trimming
(an absent cell — negative or out-of-range column — counts as missing). -/
def mandatoryPresent (indices : ColumnIndices) (row : List String) : Bool :=
  (((rowGet row indices.siteName).map jsTrim).getD "" ≠ "") &&
  (((rowGet row indices.username).map jsTrim).getD "" ≠ "") &&
  (((rowGet row indices.password).map jsTrim).getD "" ≠ "")

/-- The record the claim expects from a kept row (C7): the mandatory cells
trimmed, URL and notes defaulting to the empty string. -/
def specRecord (indices : ColumnIndices) (row : List String) : SiteCredential :=
  { siteName := ((rowGet row indices.siteName).map jsTrim).getD ""
    url := if indices.url ≥ 0 then ((rowGet row indices.url).map jsTrim).getD "" else ""
    username := ((rowGet row indices.username).map jsTrim).getD ""
    password := ((rowGet row indices.password).map jsTrim).getD ""
    notes := if indices.notes ≥ 0 then ((rowGet row indices.notes).map jsTrim).getD "" else "" }

/-- Pointwise form of the row loop: a row yields a record exactly when its
mandatory fields are present, and then exactly the expected record. -/
theorem rowToCredential_eq (indices : ColumnIndices) (row : List String) :
    rowToCredential indices row =
      if mandatoryPresent indices row then some (specRecord indices row) else none := by
  unfold rowToCredential mandatoryPresent specRecord
  by_cases h0 : row.length = 0
  · rw [if_pos h0]
    have hrow : row = [] := List.length_eq_zero.1 h0
    subst hrow
    simp [rowGet]
  · rw [if_neg h0]
    cases hsn : (rowGet row indices.siteName).map jsTrim with
    | none => simp [hsn]
    | some sn =>
        cases hun : (rowGet row indices.username).map jsTrim with
        | none => simp [hsn, hun]
        | some un =>
            cases hpw : (rowGet row indices.password).map jsTrim with
            | none => simp [hsn, hun, hpw]
            | some pw =>
                simp only [hsn, hun, hpw, Option.getD_some]
                by_cases hs : sn = "" <;> by_cases hu : un = "" <;> by_cases hp : pw = "" <;>
                  simp [hs, hu, hp]

/-- `filterMap` by a conditional function is filtering then mapping. -/
theorem filterMap_eq_map_filter {α β : Type} (p : α → Bool) (g : α → β)
    (f : α → Option β) (hf : ∀ a, f a = if p a then some (g a) else none)
    (l : List α) : l.filterMap f = (l.filter p).map g := by
  induction l with
  | nil => rfl
  | cons a rest ih =>
      rw [List.filterMap_cons, List.filter_cons, hf a]
      by_cases hp : p a = true <;> simp [hp, ih]

/-- C7: for every table with a header and at least one data row, parsing
raises no error and returns, in order, exactly one record per data row
whose mandatory fields (site name, username, password) are non-empty after
trimming; every other data row is silently dropped. -/
theorem parseCredentialsData_rows (data : List (List String)) (h : 2 ≤ data.length) :
    parseCredentialsData data =
      Except.ok
        (List.map (specRecord (computeIndices (data.headD [])))
          (List.filter (mandatoryPresent (computeIndices (data.headD []))) data.tail)) := by
  unfold parseCredentialsData
  rw [if_neg (by omega)]
  exact congrArg Except.ok (filterMap_eq_map_filter _ _ _ (rowToCredential_eq _) data.tail)

/-- Witness for C7: a concrete table where one row lacks its site name
(dropped) and two rows are complete (kept, in order). -/
theorem parseCredentialsData_rows_witness :
    parseCredentialsData
        [["name", "user", "pass"], ["A", "u", "p"], ["", "u2", "p2"], ["B", "u3", "p3"]]
      = Except.ok
          [{ siteName := "A", url := "", username := "u", password := "p", notes := "" },
           { siteName := "B", url := "", username := "u3", password := "p3", notes := "" }] :=
  parseCredentialsData_rows
    [["name", "user", "pass"], ["A", "u", "p"], ["", "u2", "p2"], ["B", "u3", "p3"]]
    (by decide)

/-- `take` of a successor over a cons cell (stated with `+ 1` so that
`rw` matches the arithmetic forms appearing in the truncation proofs). -/
theorem take_add_one_cons {α : Type} (a : α) (l : List α) (n : Nat) :
    List.take (n + 1) (a :: l) = a :: List.take n l := rfl

/-- No sub-step begins once the check counter has reached the stop point. -/
theorem runStepsT_stop (T c i j k : Nat) (steps : List String) (h : T ≤ c) :
    runStepsT T c i j k steps = [] := by
  cases steps with
  | nil => rfl
  | cons s rest => rw [runStepsT, if_neg (by omega)]

/-- No site visit begins once the check counter has reached the stop
point. -/
theorem runSitesT_stop (T c i j : Nat) (property : PropertySearchTask)
    (sites : List Site) (navFailed : Nat → Bool) (h : T ≤ c) :
    runSitesT T c i j property sites navFailed = [] := by
  cases sites with
  | nil => rfl
  | cons site rest => rw [runSitesT, if_neg (by omega)]

/-- No property iteration begins once the check counter has reached the
stop point. -/
theorem runPropsT_stop (T c i : Nat) (tasks : List PropertySearchTask)
    (sites : List Site) (navFailed : Nat → Nat → Bool) (h : T ≤ c) :
    runPropsT T c i tasks sites navFailed = [] := by
  cases tasks with
  | nil => rfl
  | cons t rest => rw [runPropsT, if_neg (by omega)]

/-- Sub-step loop: stopping after check `T` keeps exactly the first
`T - c` events of the later-stopped run. -/
theorem runStepsT_trunc (T T' : Nat) (hTT : T ≤ T') (i j : Nat) (steps : List String) :
    ∀ c k, runStepsT T c i j k steps = (runStepsT T' c i j k steps).take (T - c) := by
  induction steps with
  | nil =>
      intro c k
      simp [runStepsT]
  | cons s rest ih =>
      intro c k
      by_cases hc : c < T
      · have hc' : c < T' := by omega
        rw [runStepsT, if_pos hc, runStepsT, if_pos hc']
        rw [show T - c = (T - (c + 1)) + 1 from by omega, take_add_one_cons,
          ih (c + 1) (k + 1)]
      · rw [runStepsT, if_neg hc]
        by_cases hc' : c < T'
        · rw [runStepsT, if_pos hc', show T - c = 0 from by omega, List.take_zero]
        · rw [runStepsT, if_neg hc']
          simp

/-- One site's sub-step block truncates the same way. -/
theorem stepEvsOfSite_trunc (T T' : Nat) (hTT : T ≤ T') (c i j : Nat)
    (property : PropertySearchTask) (site : Site) (navFailed : Nat → Bool) :
    stepEvsOfSite T c i j property site navFailed
      = (stepEvsOfSite T' c i j property site navFailed).take (T - c) := by
  unfold stepEvsOfSite
  by_cases hn : navFailed j
  · simp [hn]
  · rw [if_neg hn, if_neg hn]
    exact runStepsT_trunc T T' hTT i j _ c 0

/-- Site loop: stopping after check `T` keeps exactly the first `T - c`
events of the later-stopped run. -/
theorem runSitesT_trunc (T T' : Nat) (hTT : T ≤ T') (i : Nat)
    (property : PropertySearchTask) (navFailed : Nat → Bool) (sites : List Site) :
    ∀ c j, runSitesT T c i j property sites navFailed
      = (runSitesT T' c i j property sites navFailed).take (T - c) := by
  induction sites with
  | nil =>
      intro c j
      simp [runSitesT]
  | cons site rest ih =>
      intro c j
      by_cases hc : c < T
      · have hc' : c < T' := by omega
        rw [runSitesT, if_pos hc, runSitesT, if_pos hc']
        set E : List Ev := stepEvsOfSite T (c + 1) i j property site navFailed with hE
        set F : List Ev := stepEvsOfSite T' (c + 1) i j property site navFailed with hF
        have hevs : E = F.take (T - (c + 1)) :=
          stepEvsOfSite_trunc T T' hTT (c + 1) i j property site navFailed
        have hElen : E.length = min (T - (c + 1)) F.length := by
          rw [hevs, List.length_take]
        rw [show T - c = (T - (c + 1)) + 1 from by omega,
          List.take_append_eq_append_take, take_add_one_cons]
        simp only [List.length_cons]
        rw [show T - (c + 1) + 1 - (F.length + 1) = T - (c + 1) - F.length from by omega]
        by_cases hcut : F.length ≤ T - (c + 1)
        · have hEF : E = F := by
            rw [hevs, List.take_of_length_le hcut]
          have hrest := ih (c + 1 + F.length) (j + 1)
          rw [hEF, List.take_of_length_le hcut,
            show T - (c + 1) - F.length = T - (c + 1 + F.length) from by omega, hrest]
        · have hstop : runSitesT T (c + 1 + E.length) i (j + 1) property rest navFailed
              = [] := by
            apply runSitesT_stop
            omega
          rw [hstop, show T - (c + 1) - F.length = 0 from by omega, List.take_zero,
            List.append_nil, List.append_nil, hevs]
      · rw [runSitesT, if_neg hc]
        by_cases hc' : c < T'
        · rw [runSitesT, if_pos hc', show T - c = 0 from by omega, List.take_zero]
        · rw [runSitesT, if_neg hc']
          simp

/-- Property loop: stopping after check `T` keeps exactly the first
`T - c` events of the later-stopped run. -/
theorem runPropsT_trunc (T T' : Nat) (hTT : T ≤ T') (sites : List Site)
    (navFailed : Nat → Nat → Bool) (tasks : List PropertySearchTask) :
    ∀ c i, runPropsT T c i tasks sites navFailed
      = (runPropsT T' c i tasks sites navFailed).take (T - c) := by
  induction tasks with
  | nil =>
      intro c i
      simp [runPropsT]
  | cons t rest ih =>
      intro c i
      by_cases hc : c < T
      · have hc' : c < T' := by omega
        rw [runPropsT, if_pos hc, runPropsT, if_pos hc']
        set E : List Ev := runSitesT T (c + 1) i 0 t sites (navFailed i) with hE
        set F : List Ev := runSitesT T' (c + 1) i 0 t sites (navFailed i) with hF
        have hevs : E = F.take (T - (c + 1)) :=
          runSitesT_trunc T T' hTT i t (navFailed i) sites (c + 1) 0
        have hElen : E.length = min (T - (c + 1)) F.length := by
          rw [hevs, List.length_take]
        rw [show T - c = (T - (c + 1)) + 1 from by omega,
          List.take_append_eq_append_take, take_add_one_cons]
        simp only [List.length_cons]
        rw [show T - (c + 1) + 1 - (F.length + 1) = T - (c + 1) - F.length from by omega]
        by_cases hcut : F.length ≤ T - (c + 1)
        · have hEF : E = F := by
            rw [hevs, List.take_of_length_le hcut]
          have hrest := ih (c + 1 + F.length) (i + 1)
          rw [hEF, List.take_of_length_le hcut,
            show T - (c + 1) - F.length = T - (c + 1 + F.length) from by omega, hrest]
        · have hstop : runPropsT T (c + 1 + E.length) (i + 1) rest sites navFailed
              = [] := by
            apply runPropsT_stop
            omega
          rw [hstop, show T - (c + 1) - F.length = 0 from by omega, List.take_zero,
            List.append_nil, List.append_nil, hevs]
      · rw [runPropsT, if_neg hc]
        by_cases hc' : c < T'
        · rw [runPropsT, if_pos hc', show T - c = 0 from by omega, List.take_zero]
        · rw [runPropsT, if_neg hc']
          simp

/-- C4: cancellation is cooperative and complete.  The flag is checked
before each property, each site and each sub-step (one check per begin
event, by construction of `runTrace` from the three source loops); if
`stop()` takes effect after the `T`-th check then the run performs exactly
the first `T` begin events of a never-stopped run — each in-flight step
completes (events are atomic) and nothing after the first failed check
begins — and in particular at most `T` items ever begin. -/
theorem runTrace_cooperative_stop (env : RunEnv) (tasks : List PropertySearchTask)
    (T T' : Nat) (h : T ≤ T') :
    runTrace env tasks T = (runTrace env tasks T').take T ∧
    (runTrace env tasks T).length ≤ T := by
  have htr := runPropsT_trunc T T' h (getAvailableSites env.creds) env.navFailed tasks 0 0
  rw [Nat.sub_zero] at htr
  refine ⟨htr, ?_⟩
  have hTr : runTrace env tasks T = (runTrace env tasks T').take T := htr
  rw [hTr, List.length_take]
  exact min_le_left _ _

/-- Witness for C4: a concrete run stopped after three checks agrees with
the first three events of a long-running one. -/
theorem runTrace_cooperative_stop_witness :
    runTrace plainEnv [sampleTask] 3 = (runTrace plainEnv [sampleTask] 100).take 3 ∧
    (runTrace plainEnv [sampleTask] 3).length ≤ 3 :=
  runTrace_cooperative_stop plainEnv [sampleTask] 3 100 (by decide)

end Bukkatsu
